import Mathlib

set_option maxHeartbeats 1000000

/-!
Verification development for the pulse repository: a change fan-out hub that
relays row-level database change events to WebSocket subscribers.

The definitions below are a shallow embedding of the Go sources:
- internal/database/database.go (DBNotification, Watch, Health, Close);
- the current server package (the Hub with per-client table/id filtering,
  the client struct, and the clients map mutated by the handlers).
Machine-level details that the claims do not touch (contexts, loggers, the
pgx pool) are abstracted into explicit inputs such as ping results and
write results.
-/

/-- Model of a parsed JSON document, the shape that json.Unmarshal consumes. -/
inductive Json where
  | null : Json
  | bool : Bool → Json
  | num : Int → Json
  | str : String → Json
  | arr : List Json → Json
  | obj : List (String × Json) → Json

/-- The DBNotification struct of database.go: operation, table and data are
the three declared JSON-tagged fields.  The `id` field is the row identity
that the Hub reads as msg.ID.  Modelled from the spec: the declaration and
extraction of the row-identity field are not present under src (the struct in
database.go has no ID field although the Hub reads one); per spec section 4.1
the extraction is best-effort and an absent identity is encoded here as the
empty string, matching the Hub comparison against the empty string. -/
structure DBNotification where
  operation : String
  table : String
  data : Json
  id : String

/-- Field lookup as json.Unmarshal sees an object: the last occurrence of a
duplicated key wins. -/
def jsonLookup (fields : List (String × Json)) (k : String) : Option Json :=
  fields.foldl (fun acc p => if p.1 == k then some p.2 else acc) none

/-- Unmarshalling one string-typed struct field: an absent or null JSON field
leaves the zero value, a string field is taken verbatim, anything else is a
type error. -/
def strField (fields : List (String × Json)) (k : String) : Except String String :=
  match jsonLookup fields k with
  | none => .ok ""
  | some .null => .ok ""
  | some (.str s) => .ok s
  | some _ => .error ("cannot unmarshal field " ++ k)

/-- Modelled from the spec: best-effort row-identity extraction (spec section
4.1).  If the data payload is an object exposing a string-valued id field,
that value is the row identity; otherwise the identity is left absent (the
empty string), never failing the decode. -/
def extractRowID (data : Json) : String :=
  match data with
  | .obj fields =>
    match jsonLookup fields "id" with
    | some (.str s) => s
    | _ => ""
  | _ => ""

/-- json.Unmarshal of a payload into DBNotification: a JSON null leaves the
zero value, an object is unmarshalled field-wise, any other top-level value
is a type error.  No validation of the operation or table values occurs. -/
def unmarshalDBNotification (j : Json) : Except String DBNotification :=
  match j with
  | .null => .ok ⟨"", "", .null, ""⟩
  | .obj fields =>
    match strField fields "operation", strField fields "table" with
    | .ok op, .ok tb =>
      let d := (jsonLookup fields "data").getD .null
      .ok ⟨op, tb, d, extractRowID d⟩
    | .error e, _ => .error e
    | .ok _, .error e => .error e
  | _ => .error "cannot unmarshal payload"

/-- The decode step of Watch: a raw payload either fails to parse as JSON at
all (modelled as none) or parses to a JSON document that is unmarshalled. -/
def decode (p : Option Json) : Except String DBNotification :=
  match p with
  | none => .error "invalid payload"
  | some j => unmarshalDBNotification j

def exceptOk {ε α : Type} : Except ε α → Bool
  | .ok _ => true
  | .error _ => false

def decodeOk (p : Option Json) : Bool :=
  exceptOk (decode p)

/-- Structural well-formedness of one string-typed field, stated without
reference to the unmarshaller. -/
def strFieldOK (fields : List (String × Json)) (k : String) : Bool :=
  match jsonLookup fields k with
  | none => true
  | some .null => true
  | some (.str _) => true
  | some _ => false

/-- Structural characterisation of the payloads the decoder accepts: valid
JSON whose top level is null or an object whose operation and table fields,
when present, are strings (or null). -/
def decodableShape (p : Option Json) : Bool :=
  match p with
  | some .null => true
  | some (.obj fields) => strFieldOK fields "operation" && strFieldOK fields "table"
  | _ => false

/-- One wait result inside the Watch loop: either WaitForNotification errors,
or a raw payload arrives (already split into parse outcome). -/
inductive WaitResult where
  | waitErr : String → WaitResult
  | notif : Option Json → WaitResult

/-- One iteration of the Watch loop body: on a wait error or a decode error
the loop logs, sleeps one second and continues without delivering; on a
successful decode the event is sent on the channel.  Returns the channel
contents and the seconds slept. -/
def watchLoopIter (queue : List DBNotification) (w : WaitResult) :
    List DBNotification × Nat :=
  match w with
  | .waitErr _ => (queue, 1)
  | .notif p =>
    match decode p with
    | .error _ => (queue, 1)
    | .ok n => (queue ++ [n], 0)

/-- Outcome of the Watch setup phase.  fatalProcess models log.Fatalf, which
terminates the whole process. -/
inductive SetupResult where
  | fatalProcess : String → SetupResult
  | listening : SetupResult

/-- The setup phase of Watch: acquiring the pool connection and issuing the
LISTEN command.  Either failure reaches log.Fatalf. -/
def watchSetup (acquireErr lstErr : Option String) : SetupResult :=
  match acquireErr with
  | some e => .fatalProcess ("Unable to acquire connection: " ++ e)
  | none =>
    match lstErr with
    | some e => .fatalProcess ("Unable to start listening: " ++ e)
    | none => .listening

def setupIsFatal : SetupResult → Bool
  | .fatalProcess _ => true
  | .listening => false

/-- The client struct of the server package: the closing mark and the filter
fields set by the route handlers (the per-connection mutex is modelled by the
sequencing of dispatch results, not as data). -/
structure Client where
  isClosing : Bool
  table : String
  id : String

/-- The first guard of the Hub dispatch goroutine: skip when the client has a
table filter and the event is for a different table. -/
def hubSkipTable (c : Client) (msg : DBNotification) : Bool :=
  c.table != "" && c.table != msg.table

/-- The second guard of the Hub dispatch goroutine: skip when the client has a
row filter and the event carries a different (or no) row identity. -/
def hubSkipRow (c : Client) (msg : DBNotification) : Bool :=
  c.id != "" && c.id != msg.id

/-- The event passes both filter guards of the Hub dispatch goroutine. -/
def hubAllows (c : Client) (msg : DBNotification) : Bool :=
  !hubSkipTable c msg && !hubSkipRow c msg

/-- The primitive actions a dispatch goroutine can perform, in program
order: the event write on the connection, setting the closing mark, the
farewell write of the literal closing message, closing the connection, and
deleting the connection from the clients map. -/
inductive DispatchAct where
  | transportWrite : DispatchAct
  | setClosing : DispatchAct
  | transportFarewell : DispatchAct
  | transportClose : DispatchAct
  | registryDelete : DispatchAct

/-- Result of the transport write, an input from the environment. -/
inductive WriteResult where
  | ok : WriteResult
  | err : WriteResult

/-- Everything one dispatch goroutine did: the updated client, whether the
event write was attempted and whether it succeeded, whether the connection
was deleted from the clients map, whether anything was sent to an unregister
channel (the source has no such send: the old Hub has it commented out and
the current Hub deletes directly), and the trace of actions performed. -/
structure DispatchResult where
  client : Client
  attempted : Bool
  deliveredOk : Bool
  removedFromRegistry : Bool
  unregisterSent : Bool
  acts : List DispatchAct

/-- The body of the dispatch goroutine spawned by the Hub for one client and
one event: return if the client is closing; return if either filter guard
skips; otherwise write the event, and on a write error mark the client
closing, write the farewell message, close the connection and delete the
client from the clients map. -/
def dispatchClient (c : Client) (msg : DBNotification) (w : WriteResult) :
    DispatchResult :=
  if c.isClosing then ⟨c, false, false, false, false, []⟩
  else if hubSkipTable c msg then ⟨c, false, false, false, false, []⟩
  else if hubSkipRow c msg then ⟨c, false, false, false, false, []⟩
  else
    match w with
    | .ok => ⟨c, true, true, false, false, [.transportWrite]⟩
    | .err =>
      ⟨{ c with isClosing := true }, true, false, true, false,
        [.transportWrite, .setClosing, .transportFarewell, .transportClose,
          .registryDelete]⟩

/-- The unregister handling of the Hub control loop (and the direct delete of
the current Hub): delete the connection key from the clients map, modelled as
an association list. -/
def unregisterClients (clients : List (Nat × Client)) (conn : Nat) :
    List (Nat × Client) :=
  clients.filter (fun p => p.1 != conn)

/-- The closed filter variants of the spec. -/
inductive EventFilter where
  | allTables : EventFilter
  | table : String → EventFilter
  | tableAndRow : String → String → EventFilter

/-- How the route handlers build a client from the subscription filter: no
path segments for all tables, a table segment, or table and id segments. -/
def filterClient : EventFilter → Client
  | .allTables => ⟨false, "", ""⟩
  | .table t => ⟨false, t, ""⟩
  | .tableAndRow t r => ⟨false, t, r⟩

/-- The optional row identity of an event: absent when the extracted identity
is the empty string. -/
def rowID (msg : DBNotification) : Option String :=
  if msg.id = "" then none else some msg.id

/-- The filter-match relation in the words of the spec: AllTables matches
everything; Table t matches iff the table is t; TableAndRow t r matches iff
the table is t and the row identity is present and equals r. -/
def matchesSpec : EventFilter → DBNotification → Bool
  | .allTables, _ => true
  | .table t, msg => msg.table == t
  | .tableAndRow t r, msg =>
    msg.table == t && (rowID msg).isSome && rowID msg == some r

/-- Well-formed filters: table names and row identities coming from matched
path segments are non-empty. -/
def FilterWF : EventFilter → Prop
  | .allTables => True
  | .table t => t ≠ ""
  | .tableAndRow t r => t ≠ "" ∧ r ≠ ""

/-- The Hub state for the concurrent dispatch model: the heap of all client
structs ever allocated (keyed by connection, never deallocated, since the
goroutines hold pointers), the key set of the clients map, the outstanding
dispatch goroutines, and the completed deliveries in completion order. -/
structure HubState where
  heap : List (Nat × Client)
  members : List Nat
  tasks : List (Nat × DBNotification)
  delivered : List (Nat × DBNotification)

def heapGet : List (Nat × Client) → Nat → Option Client
  | [], _ => none
  | p :: tl, conn => if p.1 = conn then some p.2 else heapGet tl conn

def heapSet : List (Nat × Client) → Nat → Client → List (Nat × Client)
  | [], _, _ => []
  | p :: tl, conn, c =>
    if p.1 = conn then (conn, c) :: heapSet tl conn c
    else p :: heapSet tl conn c

/-- The Hub control loop processing one broadcast event: it ranges over the
clients map and spawns one dispatch goroutine per client, then returns to the
loop head without waiting for any of them. -/
def hubEvent (s : HubState) (msg : DBNotification) : HubState :=
  { s with tasks := s.tasks ++ s.members.map (fun conn => (conn, msg)) }

/-- Completion of one outstanding dispatch goroutine, chosen by position: the
goroutine runs dispatchClient on the client it captured, the mutated client
is written back, a successful write is recorded as a delivery, and a write
failure deletes the connection from the clients map. -/
def completeTask (s : HubState) (i : Nat) (w : WriteResult) : HubState :=
  match s.tasks[i]? with
  | none => s
  | some (conn, msg) =>
    match heapGet s.heap conn with
    | none => { s with tasks := s.tasks.eraseIdx i }
    | some c =>
      let r := dispatchClient c msg w
      { heap := heapSet s.heap conn r.client
        members :=
          if r.removedFromRegistry then s.members.filter (fun m => m != conn)
          else s.members
        tasks := s.tasks.eraseIdx i
        delivered :=
          if r.deliveredOk then s.delivered ++ [(conn, msg)] else s.delivered }

/-- The interleaving of the Hub loop with its dispatch goroutines: at any
point the loop may process the next event, or any outstanding goroutine may
run to completion with some write result. -/
inductive HubStep : HubState → HubState → Prop where
  | event : ∀ (s : HubState) (msg : DBNotification), HubStep s (hubEvent s msg)
  | complete : ∀ (s : HubState) (i : Nat) (w : WriteResult),
      HubStep s (completeTask s i w)

/-- Soundness of deliveries: every delivered pair was allowed by the filter
fields of the client registered for that connection. -/
def deliveredSound (s : HubState) : Prop :=
  ∀ p ∈ s.delivered,
    ∃ c, heapGet s.heap p.1 = some c ∧ hubAllows c p.2 = true


lemma hubAllows_true_iff (c : Client) (msg : DBNotification) :
    hubAllows c msg = true ↔
      ((c.table = "" ∨ c.table = msg.table) ∧ (c.id = "" ∨ c.id = msg.id)) := by
  by_cases h1 : c.table = "" <;> by_cases h2 : c.table = msg.table <;>
    by_cases h3 : c.id = "" <;> by_cases h4 : c.id = msg.id <;>
      simp [hubAllows, hubSkipTable, hubSkipRow, bne, h1, h2, h3, h4]

lemma dispatchClient_attempted (c : Client) (msg : DBNotification)
    (w : WriteResult) :
    (dispatchClient c msg w).attempted = (!c.isClosing && hubAllows c msg) := by
  cases w <;> by_cases h1 : c.isClosing <;>
    by_cases h2 : hubSkipTable c msg <;> by_cases h3 : hubSkipRow c msg <;>
      simp [dispatchClient, hubAllows, h1, h2, h3]

lemma dispatchClient_table (c : Client) (msg : DBNotification)
    (w : WriteResult) : (dispatchClient c msg w).client.table = c.table := by
  cases w <;> by_cases h1 : c.isClosing <;>
    by_cases h2 : hubSkipTable c msg <;> by_cases h3 : hubSkipRow c msg <;>
      simp [dispatchClient, h1, h2, h3]

lemma dispatchClient_id (c : Client) (msg : DBNotification)
    (w : WriteResult) : (dispatchClient c msg w).client.id = c.id := by
  cases w <;> by_cases h1 : c.isClosing <;>
    by_cases h2 : hubSkipTable c msg <;> by_cases h3 : hubSkipRow c msg <;>
      simp [dispatchClient, h1, h2, h3]

lemma dispatchClient_deliveredOk_allows (c : Client) (msg : DBNotification)
    (w : WriteResult) (h : (dispatchClient c msg w).deliveredOk = true) :
    hubAllows c msg = true := by
  revert h
  cases w <;> by_cases h1 : c.isClosing <;>
    by_cases h2 : hubSkipTable c msg <;> by_cases h3 : hubSkipRow c msg <;>
      simp [dispatchClient, hubAllows, h1, h2, h3]

lemma hubAllows_of_fields (c₁ c₂ : Client) (msg : DBNotification)
    (ht : c₁.table = c₂.table) (hi : c₁.id = c₂.id) :
    hubAllows c₁ msg = hubAllows c₂ msg := by
  unfold hubAllows hubSkipTable hubSkipRow
  rw [ht, hi]

lemma heapGet_heapSet_self (heap : List (Nat × Client)) (conn : Nat)
    (c₀ c : Client) (hc : heapGet heap conn = some c₀) :
    heapGet (heapSet heap conn c) conn = some c := by
  induction heap with
  | nil => simp [heapGet] at hc
  | cons hd tl ih =>
    by_cases hk : hd.1 = conn
    · simp [heapGet, heapSet, hk]
    · simp only [heapGet, heapSet, hk, if_false, if_neg] at hc ⊢
      exact ih hc

lemma heapGet_heapSet_ne (heap : List (Nat × Client)) (conn x : Nat)
    (c : Client) (hx : x ≠ conn) :
    heapGet (heapSet heap conn c) x = heapGet heap x := by
  induction heap with
  | nil => simp [heapGet, heapSet]
  | cons hd tl ih =>
    have hset : heapSet (hd :: tl) conn c =
        if hd.1 = conn then (conn, c) :: heapSet tl conn c
        else hd :: heapSet tl conn c := rfl
    have hget : ∀ (q : Nat × Client) (l : List (Nat × Client)),
        heapGet (q :: l) x = if q.1 = x then some q.2 else heapGet l x :=
      fun q l => rfl
    by_cases hk : hd.1 = conn
    · have hcx : ¬ conn = x := fun h => hx h.symm
      have hdx : ¬ hd.1 = x := by rw [hk]; exact hcx
      rw [hset, if_pos hk, hget, hget, if_neg hcx, if_neg hdx]
      exact ih
    · rw [hset, if_neg hk, hget, hget]
      by_cases hx2 : hd.1 = x
      · rw [if_pos hx2, if_pos hx2]
      · rw [if_neg hx2, if_neg hx2]
        exact ih

lemma exceptOk_strField (fields : List (String × Json)) (k : String) :
    exceptOk (strField fields k) = strFieldOK fields k := by
  unfold strField strFieldOK
  cases h : jsonLookup fields k with
  | none => rfl
  | some j => cases j <;> rfl

lemma strField_ok_of (fields : List (String × Json)) (k : String)
    (h : strFieldOK fields k = true) : ∃ s, strField fields k = .ok s := by
  unfold strFieldOK at h
  unfold strField
  cases hj : jsonLookup fields k with
  | none => exact ⟨"", rfl⟩
  | some j =>
    rw [hj] at h
    cases j with
    | null => exact ⟨"", rfl⟩
    | str s => exact ⟨s, rfl⟩
    | bool b => exact absurd h (by simp)
    | num n => exact absurd h (by simp)
    | arr xs => exact absurd h (by simp)
    | obj fs => exact absurd h (by simp)

/-- The row-identity field is absent or of unexpected shape in the data
payload, stated structurally. -/
def rowIDShapeAbsent (data : Json) : Bool :=
  match data with
  | .obj fields =>
    match jsonLookup fields "id" with
    | some (.str _) => false
    | _ => true
  | _ => true

lemma extractRowID_absent (d : Json) (h : rowIDShapeAbsent d = true) :
    extractRowID d = "" := by
  cases d with
  | obj fields =>
    simp only [rowIDShapeAbsent] at h
    simp only [extractRowID]
    cases hj : jsonLookup fields "id" with
    | none => simp [hj]
    | some j =>
      cases j <;> simp_all
  | null => rfl
  | bool b => rfl
  | num n => rfl
  | str s => rfl
  | arr xs => rfl

def evA : DBNotification := ⟨"insert", "orders", Json.null, "1"⟩

def evB : DBNotification := ⟨"update", "orders", Json.null, "2"⟩

def cAll : Client := ⟨false, "", ""⟩

def cClosed : Client := ⟨true, "", ""⟩

/-- C1: for an event processed by the Hub and a registered subscriber whose
client was built from a well-formed filter, the filter guards of the dispatch
goroutine realise exactly the spec relation (AllTables matches everything,
Table t matches iff the table is t, TableAndRow t r matches iff the table is
t and the row identity is present and equals r), and the event write is
attempted iff the filter matches. -/
theorem hub_filter_match_c1 (f : EventFilter) (msg : DBNotification)
    (w : WriteResult) (hwf : FilterWF f) :
    hubAllows (filterClient f) msg = matchesSpec f msg ∧
    (dispatchClient (filterClient f) msg w).attempted = matchesSpec f msg := by
  have hcl : (filterClient f).isClosing = false := by cases f <;> rfl
  have hmain : hubAllows (filterClient f) msg = matchesSpec f msg := by
    rw [Bool.eq_iff_iff, hubAllows_true_iff]
    cases f with
    | allTables => simp [filterClient, matchesSpec]
    | table t =>
      have ht : t ≠ "" := hwf
      by_cases h1 : msg.table = t
      · simp [filterClient, matchesSpec, ht, h1]
      · have h1s : ¬ t = msg.table := fun h => h1 h.symm
        simp [filterClient, matchesSpec, ht, h1, h1s]
    | tableAndRow t r =>
      obtain ⟨ht, hr⟩ := hwf
      by_cases h3 : msg.id = ""
      · have h2 : ¬ r = msg.id := by rw [h3]; exact hr
        simp [filterClient, matchesSpec, rowID, ht, hr, h2, h3]
      · by_cases h1 : msg.table = t <;> by_cases h2 : msg.id = r
        · simp [filterClient, matchesSpec, rowID, ht, hr, h3, h1, h2]
        · have h2s : ¬ r = msg.id := fun h => h2 h.symm
          simp [filterClient, matchesSpec, rowID, ht, hr, h3, h1, h2, h2s]
        · have h1s : ¬ t = msg.table := fun h => h1 h.symm
          simp [filterClient, matchesSpec, rowID, ht, hr, h3, h1, h1s]
        · have h1s : ¬ t = msg.table := fun h => h1 h.symm
          simp [filterClient, matchesSpec, rowID, ht, hr, h3, h1, h1s]
  refine ⟨hmain, ?_⟩
  rw [dispatchClient_attempted, hcl, hmain]
  simp

/-- C1 witness: a concrete row-scoped filter and a matching event. -/
theorem hub_filter_match_c1_witness :
    hubAllows (filterClient (.tableAndRow "orders" "1")) evA =
      matchesSpec (.tableAndRow "orders" "1") evA ∧
    (dispatchClient (filterClient (.tableAndRow "orders" "1")) evA .ok).attempted =
      matchesSpec (.tableAndRow "orders" "1") evA :=
  hub_filter_match_c1 (.tableAndRow "orders" "1") evA .ok ⟨by decide, by decide⟩

/-- C5: when the row-identity field of the data payload is absent or of
unexpected shape, decode still succeeds (given the other fields are shape
well-formed), the event carries no row identity, and such an event passes the
AllTables guard, passes the Table guard exactly on its own table, and never
passes any TableAndRow guard. -/
theorem decode_row_identity_c5 (fields : List (String × Json))
    (hop : strFieldOK fields "operation" = true)
    (htb : strFieldOK fields "table" = true)
    (hid : rowIDShapeAbsent ((jsonLookup fields "data").getD Json.null) = true) :
    ∃ n, decode (some (.obj fields)) = .ok n ∧ rowID n = none ∧
      hubAllows (filterClient .allTables) n = true ∧
      (∀ t, t ≠ "" →
        hubAllows (filterClient (.table t)) n = (n.table == t)) ∧
      (∀ t r, r ≠ "" →
        hubAllows (filterClient (.tableAndRow t r)) n = false) := by
  obtain ⟨op, hop2⟩ := strField_ok_of _ _ hop
  obtain ⟨tb, htb2⟩ := strField_ok_of _ _ htb
  have hrid : extractRowID ((jsonLookup fields "data").getD Json.null) = "" :=
    extractRowID_absent _ hid
  refine ⟨⟨op, tb, (jsonLookup fields "data").getD Json.null, ""⟩, ?_, ?_, ?_, ?_, ?_⟩
  · simp [decode, unmarshalDBNotification, hop2, htb2, hrid]
  · simp [rowID]
  · simp [filterClient, hubAllows, hubSkipTable, hubSkipRow]
  · intro t ht
    by_cases hmt : tb = t
    · rw [Bool.eq_iff_iff, hubAllows_true_iff]
      simp [filterClient, ht, hmt]
    · have hmt2 : ¬ t = tb := fun h => hmt h.symm
      rw [Bool.eq_iff_iff, hubAllows_true_iff]
      simp [filterClient, ht, hmt, hmt2]
  · intro t r hr
    simp [filterClient, hubAllows, hubSkipTable, hubSkipRow, bne, hr]

/-- C5 witness: a payload whose data is a bare string, so no identity can be
extracted. -/
theorem decode_row_identity_c5_witness :
    ∃ n, decode (some (.obj [("operation", .str "insert"),
        ("table", .str "orders"), ("data", .str "opaque")])) = .ok n ∧
      rowID n = none ∧
      hubAllows (filterClient .allTables) n = true ∧
      (∀ t, t ≠ "" →
        hubAllows (filterClient (.table t)) n = (n.table == t)) ∧
      (∀ t r, r ≠ "" →
        hubAllows (filterClient (.tableAndRow t r)) n = false) :=
  decode_row_identity_c5 [("operation", .str "insert"),
    ("table", .str "orders"), ("data", .str "opaque")] rfl rfl rfl

/-- C6: deleting a connection from the clients map is idempotent, and
deleting an absent connection is a no-op that leaves the map unchanged. -/
theorem unregister_idempotent_c6 (clients : List (Nat × Client)) (conn : Nat) :
    unregisterClients (unregisterClients clients conn) conn =
      unregisterClients clients conn ∧
    ((∀ p ∈ clients, p.1 ≠ conn) → unregisterClients clients conn = clients) := by
  constructor
  · unfold unregisterClients
    rw [List.filter_filter]
    simp
  · intro h
    unfold unregisterClients
    rw [List.filter_eq_self]
    intro p hp
    simpa using h p hp

/-- C6 witness: deleting an absent id from a concrete one-entry map. -/
theorem unregister_idempotent_c6_witness :
    unregisterClients [(1, cAll)] 2 = [(1, cAll)] :=
  (unregister_idempotent_c6 [(1, cAll)] 2).2 (by decide)

/-- Model of the database service state as far as Close observes it. -/
structure DBService where
  poolClosed : Bool

/-- Close of database.go: logs, closes the pool (which reports nothing), and
returns nil unconditionally. -/
def serviceClose (_s : DBService) : DBService × Option String :=
  ({ poolClosed := true }, none)

/-- C10: Close returns nil for every state of the database service. -/
theorem close_returns_nil_c10 (s : DBService) : (serviceClose s).2 = none := rfl

/-- The recognised operation values named by the spec. -/
def recognizedOps : List String := ["insert", "update", "delete"]

/-- A well-formed JSON payload with an unrecognised operation and an empty
table. -/
def badPayload : Json :=
  .obj [("operation", .str "frobnicate"), ("table", .str "")]

/-- C2 counterexample: decode accepts a payload whose operation is not one of
the three recognised values and whose table is empty, so success does not
imply the validation the claim states. -/
theorem decode_validation_c2_cex :
    ¬ (∀ p : Option Json, decodeOk p = true →
        ∃ n, decode p = .ok n ∧ n.operation ∈ recognizedOps ∧ n.table ≠ "") := by
  intro h
  obtain ⟨n, hn, hop, htb⟩ := h (some badPayload) rfl
  have hn2 : (Except.ok (⟨"frobnicate", "", Json.null, ""⟩ : DBNotification)
      : Except String DBNotification) = .ok n := by
    rw [← hn]
    rfl
  have hn3 : (⟨"frobnicate", "", Json.null, ""⟩ : DBNotification) = n :=
    Except.ok.inj hn2
  rw [← hn3] at htb
  exact htb rfl

/-- C2 amended: decode succeeds exactly on shape-well-formed payloads (valid
JSON, top level null or an object whose operation and table fields, when
present, are strings), with no validation of the operation value or table
non-emptiness; on success the event table is the input table field verbatim;
on a decode error the Watch iteration delivers nothing and backs off. -/
theorem decode_validation_c2_amended (p : Option Json)
    (fields : List (String × Json)) (q : List DBNotification) :
    decodeOk p = decodableShape p ∧
    (∀ n s, decode (some (.obj fields)) = .ok n →
      jsonLookup fields "table" = some (.str s) → n.table = s) ∧
    (∀ e, decode p = .error e → watchLoopIter q (.notif p) = (q, 1)) := by
  refine ⟨?_, ?_, ?_⟩
  · cases p with
    | none => rfl
    | some j =>
      cases j with
      | obj fs =>
        simp only [decodeOk, decode, unmarshalDBNotification, decodableShape]
        rw [← exceptOk_strField fs "operation", ← exceptOk_strField fs "table"]
        cases hop : strField fs "operation" <;>
          cases htb : strField fs "table" <;>
            simp [exceptOk]
      | null => rfl
      | bool b => rfl
      | num n => rfl
      | str s => rfl
      | arr xs => rfl
  · intro n s hn hlk
    have htb : strField fields "table" = .ok s := by
      unfold strField
      rw [hlk]
    revert hn
    simp only [decode, unmarshalDBNotification, htb]
    cases hop : strField fields "operation" with
    | error e => intro hn; exact absurd hn (by simp)
    | ok op =>
      intro hn
      have := Except.ok.inj hn
      rw [← this]
  · intro e he
    simp [watchLoopIter, he]

/-- C2 witness: a payload that is not valid JSON is rejected with no
delivery, and the shape characterisation agrees on it. -/
theorem decode_validation_c2_amended_witness :
    decodeOk none = decodableShape none ∧
    watchLoopIter [] (.notif none) = ([], 1) :=
  ⟨(decode_validation_c2_amended none [] []).1,
    (decode_validation_c2_amended none [] []).2.2 "invalid payload" rfl⟩

/-- C3 counterexample: a failing dispatch deletes the connection from the
clients map from inside the dispatch goroutine itself, so the Registry is
mutated directly by a concurrent dispatch task. -/
theorem hub_eviction_c3_cex :
    ¬ (∀ (c : Client) (msg : DBNotification) (w : WriteResult),
        (dispatchClient c msg w).removedFromRegistry = false) := by
  intro h
  exact absurd (h cAll evA .err) (by decide)

/-- C3 amended: on a dispatch write failure the subscriber is marked closing
and is deleted from the clients map directly within the dispatch goroutine;
nothing is sent to any unregister input (the old Hub leaves that send
commented out and the current Hub has no unregister channel). -/
theorem hub_eviction_c3_amended (c : Client) (msg : DBNotification)
    (h1 : c.isClosing = false) (h2 : hubAllows c msg = true) :
    (dispatchClient c msg .err).client.isClosing = true ∧
    (dispatchClient c msg .err).removedFromRegistry = true ∧
    (dispatchClient c msg .err).unregisterSent = false := by
  have h3 : hubSkipTable c msg = false := by
    revert h2
    unfold hubAllows
    cases hubSkipTable c msg <;> simp
  have h4 : hubSkipRow c msg = false := by
    revert h2
    unfold hubAllows
    cases hubSkipRow c msg <;> simp
  simp [dispatchClient, h1, h3, h4]

/-- C3 witness: the failing dispatch at a concrete open all-tables client. -/
theorem hub_eviction_c3_amended_witness :
    (dispatchClient cAll evA .err).client.isClosing = true ∧
    (dispatchClient cAll evA .err).removedFromRegistry = true ∧
    (dispatchClient cAll evA .err).unregisterSent = false :=
  hub_eviction_c3_amended cAll evA rfl rfl

def writesTransport : DispatchAct → Bool
  | .transportWrite => true
  | .transportFarewell => true
  | _ => false

/-- Whether the action trace performs a transport write after the closing
mark has been set. -/
def writeAfterSetClosing : List DispatchAct → Bool
  | [] => false
  | DispatchAct.setClosing :: rest => rest.any writesTransport
  | _ :: rest => writeAfterSetClosing rest

/-- C4 counterexample: the failing dispatch sets the closing mark and then
still writes the farewell message on the very same connection, so a
transport write is attempted after the closing flag is true. -/
theorem hub_closing_c4_cex :
    ¬ (∀ (c : Client) (msg : DBNotification) (w : WriteResult),
        writeAfterSetClosing (dispatchClient c msg w).acts = false) := by
  intro h
  exact absurd (h cAll evA .err) (by decide)

/-- C4 amended: a dispatch that finds the closing flag already set performs
no action at all and leaves the client unchanged; the closing flag is never
reset to false by a dispatch; and the only write after the flag is set is
the single farewell write issued by the same failing dispatch that set it. -/
theorem hub_closing_c4_amended (c : Client) (msg : DBNotification)
    (w : WriteResult) :
    (c.isClosing = true →
      dispatchClient c msg w = ⟨c, false, false, false, false, []⟩) ∧
    ((dispatchClient c msg w).client.isClosing = false → c.isClosing = false) ∧
    (writeAfterSetClosing (dispatchClient c msg w).acts = true →
      dispatchClient c msg w =
        ⟨{ c with isClosing := true }, true, false, true, false,
          [.transportWrite, .setClosing, .transportFarewell, .transportClose,
            .registryDelete]⟩) := by
  cases w <;> by_cases h1 : c.isClosing <;>
    by_cases h2 : hubSkipTable c msg <;> by_cases h3 : hubSkipRow c msg <;>
      simp [dispatchClient, h1, h2, h3, writeAfterSetClosing, writesTransport]

/-- C4 witness: a dispatch to a concrete already-closing client is a no-op. -/
theorem hub_closing_c4_amended_witness :
    dispatchClient cClosed evA .ok = ⟨cClosed, false, false, false, false, []⟩ :=
  (hub_closing_c4_amended cClosed evA .ok).1 rfl

/-- C7 counterexample: a failure to acquire the dedicated connection reaches
log.Fatalf and terminates the whole process, rather than being fatal to the
listener only with a backoff retry. -/
theorem watch_setup_c7_cex :
    ¬ (∀ (e : String) (l : Option String),
        setupIsFatal (watchSetup (some e) l) = false) := by
  intro h
  exact absurd (h "connection refused" none) (by decide)

/-- C7 amended: failures to acquire the connection or to issue the LISTEN
command terminate the process; only errors while waiting for a notification
(or parsing one) are retried, with a fixed one-second backoff and without
terminating the process or delivering anything. -/
theorem watch_setup_c7_amended (e msg : String) (l : Option String)
    (q : List DBNotification) :
    setupIsFatal (watchSetup (some e) l) = true ∧
    setupIsFatal (watchSetup none (some e)) = true ∧
    watchSetup none none = .listening ∧
    watchLoopIter q (.waitErr msg) = (q, 1) ∧
    (∀ p er, decode p = .error er → watchLoopIter q (.notif p) = (q, 1)) := by
  refine ⟨rfl, rfl, rfl, rfl, ?_⟩
  intro p er he
  simp [watchLoopIter, he]

/-- C7 witness: a concrete wait error backs off one second, and a concrete
acquire failure is process fatal. -/
theorem watch_setup_c7_amended_witness :
    setupIsFatal (watchSetup (some "boom") none) = true ∧
    watchLoopIter [] (.waitErr "eof") = ([], 1) :=
  ⟨(watch_setup_c7_amended "boom" "eof" none []).1,
    (watch_setup_c7_amended "boom" "eof" none []).2.2.2.1⟩

lemma deliveredSound_update (s : HubState) (conn : Nat)
    (msg : DBNotification) (c : Client) (w : WriteResult)
    (hs : deliveredSound s) (hc : heapGet s.heap conn = some c) :
    ∀ p ∈ (if (dispatchClient c msg w).deliveredOk then
        s.delivered ++ [(conn, msg)] else s.delivered),
      ∃ c₂, heapGet (heapSet s.heap conn (dispatchClient c msg w).client) p.1 =
          some c₂ ∧ hubAllows c₂ p.2 = true := by
  intro p hp
  have hold : ∀ q ∈ s.delivered, ∃ c₂,
      heapGet (heapSet s.heap conn (dispatchClient c msg w).client) q.1 =
        some c₂ ∧ hubAllows c₂ q.2 = true := by
    intro q hq
    obtain ⟨c₀, hc₀, hall⟩ := hs q hq
    by_cases hqc : q.1 = conn
    · rw [hqc] at hc₀
      have hcc : c₀ = c := Option.some.inj (hc₀.symm.trans hc)
      refine ⟨(dispatchClient c msg w).client, ?_, ?_⟩
      · rw [hqc]
        exact heapGet_heapSet_self s.heap conn c _ hc
      · rw [hubAllows_of_fields _ c _ (dispatchClient_table c msg w)
          (dispatchClient_id c msg w)]
        rw [← hcc]
        exact hall
    · refine ⟨c₀, ?_, hall⟩
      rw [heapGet_heapSet_ne s.heap conn q.1 _ hqc]
      exact hc₀
  by_cases hdel : (dispatchClient c msg w).deliveredOk = true
  · rw [if_pos hdel] at hp
    rcases List.mem_append.mp hp with hp₂ | hp₂
    · exact hold p hp₂
    · have hpe : p = (conn, msg) := by simpa using hp₂
      subst hpe
      refine ⟨(dispatchClient c msg w).client,
        heapGet_heapSet_self s.heap conn c _ hc, ?_⟩
      rw [hubAllows_of_fields _ c _ (dispatchClient_table c msg w)
        (dispatchClient_id c msg w)]
      exact dispatchClient_deliveredOk_allows c msg w hdel
  · rw [if_neg hdel] at hp
    exact hold p hp

lemma hubStep_deliveredSound {s t : HubState} (hs : deliveredSound s)
    (h : HubStep s t) : deliveredSound t := by
  cases h with
  | event msg =>
    intro p hp
    exact hs p hp
  | complete i w =>
    rcases hget : s.tasks[i]? with _ | ⟨conn, msg⟩
    · have ht : completeTask s i w = s := by simp [completeTask, hget]
      rw [ht]
      exact hs
    · rcases hc : heapGet s.heap conn with _ | c
      · have ht : completeTask s i w = { s with tasks := s.tasks.eraseIdx i } := by
          simp [completeTask, hget, hc]
        rw [ht]
        intro p hp
        exact hs p hp
      · have ht : completeTask s i w =
            { heap := heapSet s.heap conn (dispatchClient c msg w).client
              members :=
                if (dispatchClient c msg w).removedFromRegistry then
                  s.members.filter (fun m => m != conn)
                else s.members
              tasks := s.tasks.eraseIdx i
              delivered :=
                if (dispatchClient c msg w).deliveredOk then
                  s.delivered ++ [(conn, msg)]
                else s.delivered } := by
          simp [completeTask, hget, hc]
        rw [ht]
        intro p hp
        exact deliveredSound_update s conn msg c w hs hc p hp

/-- Initial Hub state for the concrete traces: one open all-tables
subscriber on connection 1. -/
def hubS0 : HubState := ⟨[(1, cAll)], [1], [], []⟩

/-- C8 counterexample: from a state with one all-tables subscriber, the Hub
may process two events before either dispatch goroutine runs, leaving two
outstanding dispatch tasks for that one subscriber, and the goroutines may
then complete in the opposite order, delivering the two events out of
arrival order. -/
theorem hub_order_c8_cex :
    ∃ sMid sEnd : HubState,
      Relation.ReflTransGen HubStep hubS0 sMid ∧
      (sMid.tasks.filter (fun p => p.1 == 1)).length = 2 ∧
      Relation.ReflTransGen HubStep sMid sEnd ∧
      sEnd.delivered = [(1, evB), (1, evA)] ∧
      evA.operation ≠ evB.operation := by
  refine ⟨hubEvent (hubEvent hubS0 evA) evB,
    completeTask (completeTask (hubEvent (hubEvent hubS0 evA) evB) 1 .ok) 0 .ok,
    ?_, ?_, ?_, ?_, ?_⟩
  · exact Relation.ReflTransGen.tail
      (Relation.ReflTransGen.tail Relation.ReflTransGen.refl
        (HubStep.event hubS0 evA))
      (HubStep.event (hubEvent hubS0 evA) evB)
  · rfl
  · exact Relation.ReflTransGen.tail
      (Relation.ReflTransGen.tail Relation.ReflTransGen.refl
        (HubStep.complete (hubEvent (hubEvent hubS0 evA) evB) 1 .ok))
      (HubStep.complete
        (completeTask (hubEvent (hubEvent hubS0 evA) evB) 1 .ok) 0 .ok)
  · rfl
  · decide

/-- C8 amended: the Hub spawns exactly one dispatch task per registered
connection per event with no bound on how many tasks per subscriber are
outstanding, and completion order is arbitrary; what does hold along every
interleaving is that each delivered event passed the filter of the client
registered on its connection. -/
theorem hub_order_c8_amended (s₀ s : HubState) (h₀ : deliveredSound s₀)
    (h : Relation.ReflTransGen HubStep s₀ s) :
    deliveredSound s ∧
    ∀ msg, (hubEvent s msg).tasks =
      s.tasks ++ s.members.map (fun conn => (conn, msg)) := by
  refine ⟨?_, fun msg => rfl⟩
  induction h with
  | refl => exact h₀
  | tail hab hbc ih => exact hubStep_deliveredSound ih hbc

/-- C8 witness: soundness of the deliveries along the concrete two-event
trace. -/
theorem hub_order_c8_amended_witness :
    deliveredSound
      (completeTask (completeTask (hubEvent (hubEvent hubS0 evA) evB) 1 .ok)
        0 .ok) :=
  (hub_order_c8_amended hubS0 _
    (fun p hp => absurd hp (List.not_mem_nil p))
    (Relation.ReflTransGen.tail
      (Relation.ReflTransGen.tail
        (Relation.ReflTransGen.tail
          (Relation.ReflTransGen.tail Relation.ReflTransGen.refl
            (HubStep.event hubS0 evA))
          (HubStep.event (hubEvent hubS0 evA) evB))
        (HubStep.complete (hubEvent (hubEvent hubS0 evA) evB) 1 .ok))
      (HubStep.complete
        (completeTask (hubEvent (hubEvent hubS0 evA) evB) 1 .ok) 0 .ok))).1

/-- The pool statistics read by Health, as integers and a duration string. -/
structure PoolStat where
  totalConns : Int
  idleConns : Int
  acquiredConns : Int
  emptyAcquireCount : Int
  acquireDuration : String
  maxIdleDestroyCount : Int
  maxLifetimeDestroyCount : Int

/-- Assignment into the Go stats map, modelled on an association list. -/
def mapSet : List (String × String) → String → String → List (String × String)
  | [], k, v => [(k, v)]
  | p :: tl, k, v => if p.1 = k then (k, v) :: tl else p :: mapSet tl k v

/-- Read from the Go stats map. -/
def mapGet : List (String × String) → String → Option String
  | [], _ => none
  | p :: tl, k => if p.1 = k then some p.2 else mapGet tl k

/-- Outcome of Health: fatal models log.Fatalf terminating the process
before the return statement of the ping-failure branch executes, carrying
the map that branch had built; stats is the returned map. -/
inductive HealthResult where
  | fatal : List (String × String) → String → HealthResult
  | stats : List (String × String) → HealthResult

/-- Health of database.go, with the ping outcome and the pool statistics as
inputs: on a ping error the down map is built but log.Fatalf terminates the
process; otherwise the statistics map is built, the message possibly
overridden by the four load heuristics, and returned. -/
def health (pingErr : Option String) (st : PoolStat) : HealthResult :=
  match pingErr with
  | some e =>
    let m := mapSet [] "status" "down"
    let m := mapSet m "error" ("db down: " ++ e)
    .fatal m ("db down: " ++ e)
  | none =>
    let m := mapSet [] "status" "up"
    let m := mapSet m "message" "It\x27s healthy"
    let m := mapSet m "open_connections" (toString st.totalConns)
    let m := mapSet m "idle" (toString st.idleConns)
    let m := mapSet m "acquired" (toString st.acquiredConns)
    let m := mapSet m "wait_count" (toString st.emptyAcquireCount)
    let m := mapSet m "wait_duration" st.acquireDuration
    let m := mapSet m "max_idle_closed" (toString st.maxIdleDestroyCount)
    let m := mapSet m "max_lifetime_closed" (toString st.maxLifetimeDestroyCount)
    let m := if st.totalConns > 40 then
        mapSet m "message" "The database is experiencing heavy load."
      else m
    let m := if st.emptyAcquireCount > 1000 then
        mapSet m "message"
          "The database has a high number of wait events, indicating potential bottlenecks."
      else m
    let m := if st.maxIdleDestroyCount > Int.tdiv st.totalConns 2 then
        mapSet m "message"
          "Many idle connections are being closed, consider revising the connection pool settings."
      else m
    let m := if st.maxLifetimeDestroyCount > Int.tdiv st.totalConns 2 then
        mapSet m "message"
          "Many connections are being closed due to max lifetime, consider increasing max lifetime or revising the connection usage pattern."
      else m
    .stats m

/-- C9: whenever Health returns a map, its status entry is up; the
ping-failure branch terminates the process before its return executes, so a
down map is never observable by a caller. -/
theorem health_status_up_c9 (pingErr : Option String) (st : PoolStat)
    (m : List (String × String)) (h : health pingErr st = .stats m) :
    mapGet m "status" = some "up" := by
  cases pingErr with
  | some e => exact absurd h (by simp [health])
  | none =>
    simp only [health] at h
    split_ifs at h <;> (injection h with h₂; rw [← h₂]; rfl)

def stZero : PoolStat := ⟨0, 0, 0, 0, "0s", 0, 0⟩

/-- C9 witness: Health at a concrete healthy pool returns a map whose status
entry is up. -/
theorem health_status_up_c9_witness :
    ∃ m, health none stZero = HealthResult.stats m ∧
      mapGet m "status" = some "up" :=
  ⟨_, rfl, health_status_up_c9 none stZero _ rfl⟩
